import Mathlib

/-!
Verification of the morgottalk (transcribation) push-to-talk voice-to-text
utility against its natural-language specification.

The Go sources are shallowly embedded: pure string processing becomes Lean
functions on `String` / `List Char`, the preset orchestrator becomes explicit
state passing plus an atomic-step relation (one step per critical section of
the orchestrator mutex), and platform shell-outs become environment records
describing the outcome of each external tool invocation.
-/

namespace Transcribation

/-! ### Go string primitives

Models of the parts of Go's `strings` and `unicode` packages used by the
services package. `unicode.IsSpace` and `unicode.ToLower` are restricted to
the code points that can occur in the phrase lists of `preset.go` (ASCII and
Cyrillic); all other runes are left unchanged, exactly as Go does for runes
without a case mapping.
-/

/-- Go `unicode.IsSpace`, restricted to the Latin-1 white space code points
(space, tab, newline, vertical tab, form feed, carriage return, NEL, NBSP). -/
def isGoSpace (c : Char) : Bool :=
  c.toNat = 32 || c.toNat = 9 || c.toNat = 10 || c.toNat = 11 ||
  c.toNat = 12 || c.toNat = 13 || c.toNat = 0x85 || c.toNat = 0xA0

/-- Go `strings.TrimSpace` on the rune list: drop white space on the left. -/
def trimLeft (l : List Char) : List Char := l.dropWhile isGoSpace

/-- Go `strings.TrimSpace` on the rune list: drop white space on the right. -/
def trimRight (l : List Char) : List Char := (l.reverse.dropWhile isGoSpace).reverse

/-- Go `strings.TrimSpace`. -/
def trimSpace (s : String) : String := ⟨trimRight (trimLeft s.data)⟩

/-- Go `unicode.ToLower` on one rune, restricted to ASCII letters and the
Cyrillic letters А-Я and Ё appearing in `preset.go`'s phrase list. -/
def goToLowerChar (c : Char) : Char :=
  if 65 ≤ c.toNat ∧ c.toNat ≤ 90 then Char.ofNat (c.toNat + 32)
  else if 0x410 ≤ c.toNat ∧ c.toNat ≤ 0x42F then Char.ofNat (c.toNat + 32)
  else if c.toNat = 0x401 then Char.ofNat 0x451
  else c

/-- Go `strings.ToLower` (restricted as `goToLowerChar`). -/
def goToLower (s : String) : String := ⟨s.data.map goToLowerChar⟩

/-- Go `strings.Contains`. Byte-level substring search on valid UTF-8 agrees
with rune-level infix because UTF-8 is self-synchronising. -/
def goContains (s sub : String) : Bool := decide (sub.data <:+: s.data)

/-! ### `isHallucination` (services/preset.go) -/

/-- The runes removed by the `strings.Map` call in `isHallucination`:
punctuation, ellipsis, white space, musical glyphs and asterisk. -/
def hallucinationFilterChars : List Char :=
  ['.', ',', '!', '?', '-', '…', ' ', '\n', '\t', '♪', '♫', '🎵', '*']

/-- The closed list of known whisper hallucination phrases in
`isHallucination` (Russian then English, in source order). -/
def hallucinationPhrases : List String :=
  ["продолжение следует",
   "субтитры сделал",
   "субтитры делал",
   "субтитры создан",
   "спасибо за просмотр",
   "спасибо за внимание",
   "подписывайтесь на канал",
   "до свидания",
   "до новых встреч",
   "благодарю за внимание",
   "редактор субтитров",
   "thank you",
   "thanks for watching",
   "subscribe",
   "like and subscribe",
   "please subscribe",
   "the end",
   "to be continued",
   "subtitles by",
   "translated by",
   "you",
   "bye"]

/-- `isHallucination` from services/preset.go: flags empty-after-cleaning
text, text containing a known canned phrase, and text whose cleaned rune
count is at most 3. -/
def isHallucination (text : String) : Bool :=
  if text = "" then false
  else
    let lower := goToLower (trimSpace text)
    let cleaned := lower.data.filter (fun r => !hallucinationFilterChars.contains r)
    if cleaned = [] then true
    else if hallucinationPhrases.any (fun h => goContains lower h) then true
    else if cleaned.length ≤ 3 then true
    else false

/-! ### `cleanWhisperOutput` (services/whisper.go)

The regular expression
`\[[^\[\]]+\]|\((?i:music|noise|silence|blank.?audio|laughter|applause)\)`
is modelled by a left-to-right scan. RE2's leftmost match of this pattern at
a given position is deterministic: the bracket alternative matches exactly
when the first bracket rune after the opening `[` is `]` with at least one
rune in between, and the six parenthesised words have pairwise distinct
first letters. -/

/-- ASCII-only lowering, as used by the `(?i:...)` group of the noise
regular expression (its alternatives are ASCII words). -/
def lowerAscii (c : Char) : Char :=
  if 65 ≤ c.toNat ∧ c.toNat ≤ 90 then Char.ofNat (c.toNat + 32) else c

/-- Match the word `w` case-insensitively at the head of `cs`; return the
rest of the input on success. -/
def matchWordCI : List Char → List Char → Option (List Char)
  | [], cs => some cs
  | _ :: _, [] => none
  | w :: ws, c :: cs => if lowerAscii c = w then matchWordCI ws cs else none

/-- Expect a closing parenthesis. -/
def expectClose : List Char → Option (List Char)
  | ')' :: cs => some cs
  | _ => none

/-- Match `blank.?audio\)` (the `.` of RE2 does not match a newline; the
greedy `.?` first tries to consume one rune). -/
def matchBlankAudioClose (cs : List Char) : Option (List Char) :=
  match matchWordCI "blank".data cs with
  | none => none
  | some rest =>
    match rest with
    | [] => none
    | c :: rest1 =>
      if c ≠ '\n' then
        match (matchWordCI "audio".data rest1).bind expectClose with
        | some r => some r
        | none => (matchWordCI "audio".data rest).bind expectClose
      else (matchWordCI "audio".data rest).bind expectClose

/-- Match the tail of the parenthesised alternative (after `(`):
one of the noise words, case-insensitively, followed by `)`. -/
def matchNoiseTail (cs : List Char) : Option (List Char) :=
  ((matchWordCI "music".data cs).bind expectClose) <|>
  ((matchWordCI "noise".data cs).bind expectClose) <|>
  ((matchWordCI "silence".data cs).bind expectClose) <|>
  matchBlankAudioClose cs <|>
  ((matchWordCI "laughter".data cs).bind expectClose) <|>
  ((matchWordCI "applause".data cs).bind expectClose)

/-- Match the tail of `\[[^\[\]]+\]` (after `[`): a nonempty run of
non-bracket runes up to a closing `]`. -/
def matchBracketTail (cs : List Char) : Option (List Char) :=
  if (cs.takeWhile (fun c => c ≠ '[' ∧ c ≠ ']')).length = 0 then none
  else
    match cs.drop (cs.takeWhile (fun c => c ≠ '[' ∧ c ≠ ']')).length with
    | ']' :: r => some r
    | _ => none

theorem matchWordCI_length_le :
    ∀ (w cs r : List Char), matchWordCI w cs = some r → r.length ≤ cs.length := by
  intro w
  induction w with
  | nil => intro cs r h; simp [matchWordCI] at h; simp [h]
  | cons x xs ih =>
    intro cs r h
    cases cs with
    | nil => simp [matchWordCI] at h
    | cons c cs' =>
      simp only [matchWordCI] at h
      split at h
      · exact Nat.le_succ_of_le (ih cs' r h)
      · exact absurd h (by simp)

theorem expectClose_length_le (cs r : List Char) (h : expectClose cs = some r) :
    r.length ≤ cs.length := by
  cases cs with
  | nil => simp [expectClose] at h
  | cons c cs' =>
    unfold expectClose at h
    split at h
    · rename_i heq
      cases heq
      cases h
      exact Nat.le_succ _
    · cases h

theorem bindClose_length_le (w cs r : List Char)
    (h : (matchWordCI w cs).bind expectClose = some r) : r.length ≤ cs.length := by
  cases hw : matchWordCI w cs with
  | none => rw [hw] at h; cases h
  | some mid =>
    rw [hw] at h
    exact le_trans (expectClose_length_le mid r h) (matchWordCI_length_le w cs mid hw)

theorem matchBlankAudioClose_length_le (cs r : List Char)
    (h : matchBlankAudioClose cs = some r) : r.length ≤ cs.length := by
  unfold matchBlankAudioClose at h
  cases hw : matchWordCI "blank".data cs with
  | none => rw [hw] at h; cases h
  | some rest =>
    rw [hw] at h
    have hrest := matchWordCI_length_le _ cs rest hw
    cases rest with
    | nil => cases h
    | cons c rest1 =>
      simp only at h
      split at h
      · split at h
        · rename_i r' heq
          cases h
          have := bindClose_length_le "audio".data rest1 r heq
          have h1 : r.length ≤ rest1.length := this
          exact le_trans (Nat.le_succ_of_le h1) hrest
        · exact le_trans (bindClose_length_le "audio".data _ r h) hrest
      · exact le_trans (bindClose_length_le "audio".data _ r h) hrest

theorem matchNoiseTail_length_le (cs r : List Char)
    (h : matchNoiseTail cs = some r) : r.length ≤ cs.length := by
  unfold matchNoiseTail at h
  rcases Option.orElse_eq_some _ _ _ |>.mp h with h1 | ⟨_, h1⟩
  · exact bindClose_length_le _ cs r h1
  rcases Option.orElse_eq_some _ _ _ |>.mp h1 with h2 | ⟨_, h2⟩
  · exact bindClose_length_le _ cs r h2
  rcases Option.orElse_eq_some _ _ _ |>.mp h2 with h3 | ⟨_, h3⟩
  · exact bindClose_length_le _ cs r h3
  rcases Option.orElse_eq_some _ _ _ |>.mp h3 with h4 | ⟨_, h4⟩
  · exact matchBlankAudioClose_length_le cs r h4
  rcases Option.orElse_eq_some _ _ _ |>.mp h4 with h5 | ⟨_, h5⟩
  · exact bindClose_length_le _ cs r h5
  · exact bindClose_length_le _ cs r h5

theorem matchBracketTail_length_le (cs r : List Char)
    (h : matchBracketTail cs = some r) : r.length ≤ cs.length := by
  unfold matchBracketTail at h
  split at h
  · cases h
  · split at h
    · rename_i heq
      cases h
      have hdrop : (cs.drop (cs.takeWhile (fun c => c ≠ '[' ∧ c ≠ ']')).length).length ≤ cs.length :=
        by simp
      rw [heq] at hdrop
      simp at hdrop
      omega
    · cases h

/-- One pass of Go's `ReplaceAllString(text, "")` for the noise regular
expression: scan left to right, deleting each leftmost match and resuming
after it. The fuel argument makes the recursion structural; it bounds the
number of scan steps and never runs out when initialised with the input
length, because a successful match never lengthens the rest of the input
(`matchBracketTail_length_le`, `matchNoiseTail_length_le`). -/
def noiseScanF : Nat → List Char → List Char
  | 0, l => l
  | _ + 1, [] => []
  | f + 1, c :: cs =>
    if c = '[' then
      match matchBracketTail cs with
      | some rest => noiseScanF f rest
      | none => c :: noiseScanF f cs
    else if c = '(' then
      match matchNoiseTail cs with
      | some rest => noiseScanF f rest
      | none => c :: noiseScanF f cs
    else c :: noiseScanF f cs

/-- The noise-marker deletion scan over a whole rune list. -/
def noiseScan (l : List Char) : List Char := noiseScanF l.length l

/-- `cleanWhisperOutput` from services/whisper.go: strip noise markers,
then trim white space. -/
def cleanWhisperOutput (text : String) : String :=
  trimSpace ⟨noiseScan text.data⟩

/-! ### Supporting lemmas about the scan and trimming -/

theorem noiseScanF_eq_self (l : List Char)
    (hm : ∀ c ∈ l, c ≠ '[' ∧ c ≠ '(') : ∀ f, noiseScanF f l = l := by
  induction l with
  | nil => intro f; cases f <;> rfl
  | cons c cs ih =>
    intro f
    cases f with
    | zero => rfl
    | succ f =>
      have hc := hm c (by simp)
      have hcs : ∀ c ∈ cs, c ≠ '[' ∧ c ≠ '(' := fun x hx => hm x (by simp [hx])
      simp only [noiseScanF, if_neg hc.1, if_neg hc.2]
      rw [ih hcs f]

theorem noiseScan_eq_self (l : List Char)
    (hm : ∀ c ∈ l, c ≠ '[' ∧ c ≠ '(') : noiseScan l = l :=
  noiseScanF_eq_self l hm l.length

theorem cleanWhisperOutput_eq_trim (s : String)
    (hm : ∀ c ∈ s.data, c ≠ '[' ∧ c ≠ '(') : cleanWhisperOutput s = trimSpace s := by
  unfold cleanWhisperOutput
  rw [noiseScan_eq_self s.data hm]

theorem dropWhile_cons_self_head (p : Char → Bool) (c : Char) (l : List Char)
    (h : (c :: l).dropWhile p = c :: l) : p c = false := by
  rw [List.dropWhile_cons] at h
  split at h
  · have hlen := congrArg List.length h
    have hle := (List.dropWhile_sublist (l := l) (p := p)).length_le
    simp at hlen
    omega
  · rename_i hc
    simpa using hc

theorem trim_self_parts (l : List Char) (h : trimRight (trimLeft l) = l) :
    trimLeft l = l ∧ trimRight l = l := by
  have h1 : trimLeft l <:+ l := List.dropWhile_suffix isGoSpace
  have h2 : (trimRight (trimLeft l)).length ≤ (trimLeft l).length := by
    unfold trimRight
    have := (List.dropWhile_sublist (l := (trimLeft l).reverse) (p := isGoSpace)).length_le
    simpa using this
  have hlen : (trimLeft l).length = l.length := by
    have := h1.length_le
    rw [h] at h2
    omega
  have hL : trimLeft l = l := h1.eq_of_length hlen
  exact ⟨hL, by rw [hL] at h; exact h⟩

theorem data_ne_nil_of_ne_empty (s : String) (h : s ≠ "") : s.data ≠ [] := by
  intro hd
  apply h
  cases s
  simp_all

theorem trimSpace_data (s : String) (h : trimSpace s = s) :
    trimRight (trimLeft s.data) = s.data := congrArg String.data h

/-- C9 helper: trimming is the identity on the space-joined concatenation of
two nonempty already-trimmed strings. -/
theorem trim_append_space (a b : String) (ha : a ≠ "") (hb : b ≠ "")
    (hta : trimSpace a = a) (htb : trimSpace b = b) :
    trimRight (trimLeft (a.data ++ ' ' :: b.data)) = a.data ++ ' ' :: b.data := by
  obtain ⟨hLa, hRa⟩ := trim_self_parts a.data (trimSpace_data a hta)
  obtain ⟨hLb, hRb⟩ := trim_self_parts b.data (trimSpace_data b htb)
  have hA := data_ne_nil_of_ne_empty a ha
  have hB := data_ne_nil_of_ne_empty b hb
  -- the first rune of `a` is not white space
  obtain ⟨c, l, hcl⟩ := List.exists_cons_of_ne_nil hA
  have hc : isGoSpace c = false := by
    apply dropWhile_cons_self_head isGoSpace c l
    rw [← hcl]; exact hLa
  -- the last rune of `b` is not white space
  have hRb' : b.data.reverse.dropWhile isGoSpace = b.data.reverse := by
    have := congrArg List.reverse hRb
    unfold trimRight at this
    simpa using this
  obtain ⟨c', l', hcl'⟩ := List.exists_cons_of_ne_nil (by simpa using hB :
    b.data.reverse ≠ [])
  have hc' : isGoSpace c' = false := by
    apply dropWhile_cons_self_head isGoSpace c' l'
    rw [← hcl']; exact hRb'
  have hleft : trimLeft (a.data ++ ' ' :: b.data) = a.data ++ ' ' :: b.data := by
    unfold trimLeft
    rw [hcl, List.cons_append, List.dropWhile_cons, hc]
    simp
  rw [hleft]
  unfold trimRight
  rw [List.reverse_append, List.reverse_cons, List.append_assoc, hcl',
    List.cons_append, List.dropWhile_cons, hc']
  simp only [Bool.false_eq_true, if_false, List.reverse_append, List.reverse_cons,
    List.reverse_reverse, List.append_assoc, List.nil_append, List.cons_append,
    List.append_cancel_right_eq]
  have := congrArg List.reverse hcl'
  simpa using this.symm

/-- C9, amended: per-chunk noise-marker cleanup commutes with concatenation
by a single space when neither side can contribute to a marker match: both
strings are nonempty, already trimmed, and contain no `[` and no `(`
(markers removed inside a string would otherwise leave a double space that
outer trimming cannot repair, and an unmatched bracket could complete a
marker across the boundary). -/
theorem cleanWhisperOutput_append_space (a b : String)
    (ha : a ≠ "") (hb : b ≠ "")
    (hta : trimSpace a = a) (htb : trimSpace b = b)
    (hma : ∀ c ∈ a.data, c ≠ '[' ∧ c ≠ '(')
    (hmb : ∀ c ∈ b.data, c ≠ '[' ∧ c ≠ '(') :
    cleanWhisperOutput a ++ " " ++ cleanWhisperOutput b
      = cleanWhisperOutput (a ++ " " ++ b) := by
  have hdata : (a ++ " " ++ b).data = a.data ++ ' ' :: b.data := by
    simp [String.data_append]
  have hmab : ∀ c ∈ (a ++ " " ++ b).data, c ≠ '[' ∧ c ≠ '(' := by
    rw [hdata]
    intro c hc
    rcases List.mem_append.mp hc with h1 | h1
    · exact hma c h1
    · rcases List.mem_cons.mp h1 with h2 | h2
      · subst h2; exact ⟨by decide, by decide⟩
      · exact hmb c h2
  rw [cleanWhisperOutput_eq_trim a hma, cleanWhisperOutput_eq_trim b hmb,
    cleanWhisperOutput_eq_trim _ hmab, hta, htb]
  unfold trimSpace
  rw [hdata, trim_append_space a b ha hb hta htb]
  apply String.ext
  simp [String.data_append]

/-- C9 witness: the amended commutation at concrete marker-free trimmed
strings. -/
theorem cleanWhisperOutput_append_space_witness :
    cleanWhisperOutput "hello" ++ " " ++ cleanWhisperOutput "world"
      = cleanWhisperOutput ("hello" ++ " " ++ "world") :=
  cleanWhisperOutput_append_space "hello" "world" (by decide) (by decide)
    (by decide) (by decide) (by decide) (by decide)

/-- C9 counterexample to the claim as stated: removing the marker
`[noise]` from the left chunk leaves a double space in the cleaned
concatenation, which trimming does not repair, so the two sides differ even
after trimming. -/
theorem cleanWhisperOutput_append_space_fails :
    cleanWhisperOutput "hi [noise]" ++ " " ++ cleanWhisperOutput "there"
      = "hi there" ∧
    cleanWhisperOutput ("hi [noise]" ++ " " ++ "there") = "hi  there" ∧
    ("hi there" : String) ≠ "hi  there" ∧
    trimSpace "hi there" ≠ trimSpace "hi  there" := by decide

/-- C8: the hallucination gate is a deterministic pure predicate of the
text, but it is not monotone in the claimed sense: deleting runes from a
flagged text can unflag it, and inserting runes into an unflagged text can
flag it. -/
theorem hallucination_gate_deterministic_not_monotone :
    (∀ s t : String, s = t → isHallucination s = isHallucination t) ∧
    (∃ s t : String, t.data.Sublist s.data ∧
      isHallucination s = true ∧ isHallucination t = false) ∧
    (∃ s t : String, s.data.Sublist t.data ∧
      isHallucination s = false ∧ isHallucination t = true) :=
  ⟨fun _ _ h => h ▸ rfl,
   ⟨".", "", by decide⟩,
   ⟨"hello", "hello you", by decide⟩⟩

/-- C8 witness: the determinism clause applied at a concrete text. -/
theorem hallucination_gate_deterministic_not_monotone_witness :
    isHallucination "hello" = isHallucination "hello" :=
  hallucination_gate_deterministic_not_monotone.1 "hello" "hello" rfl

/-- C8 counterexample to the claim as stated: `"."` is flagged yet deleting
its only rune yields `""`, which is not flagged; `"hello"` is not flagged
yet inserting `" you"` yields `"hello you"`, which is flagged. -/
theorem hallucination_gate_monotonicity_fails :
    isHallucination "." = true ∧ isHallucination "" = false ∧
    List.Sublist "".data ".".data ∧
    isHallucination "hello" = false ∧ isHallucination "hello you" = true ∧
    List.Sublist "hello".data "hello you".data := by decide

/-! ### Configuration data model (internal/config) -/

/-- `config.Preset`: a user-defined capture profile. -/
structure Preset where
  id : String
  name : String
  modelName : String
  keepModelLoaded : Bool
  inputMode : String
  hotkey : String
  language : String
  useKBLayout : Bool
  keepHistory : Bool
  enabled : Bool
deriving DecidableEq, Repr, Inhabited

/-- `config.oldConfig`: the legacy flat configuration shape. -/
structure OldConfig where
  modelName : String
  modelsDir : String
  language : String
  translate : Bool
  hotkeyMod : String
  hotkeyKey : String
  microphoneID : String
  autoStart : Bool
  recordMode : String
  outputMode : String
deriving DecidableEq, Repr

/-- `config.AppConfig`: the global configuration envelope. -/
structure AppConfig where
  microphoneID : String
  modelsDir : String
  theme : String
  uiLang : String
  closeAction : String
  autoStart : Bool
  startMinimized : Bool
  backend : String
  presets : List Preset
deriving DecidableEq, Repr

/-- `config.migrateOldConfig` (after a successful JSON decode of the legacy
object): build the single migrated preset and the new envelope. The fresh
`uuid.New()` identifier is passed in as `freshID`; fields the Go struct
literal does not mention stay at their zero values. -/
def migrateOldConfig (freshID : String) (old : OldConfig) : AppConfig :=
  let hotkey :=
    if old.hotkeyMod ≠ "" ∧ old.hotkeyKey ≠ "" then
      old.hotkeyMod ++ "+" ++ old.hotkeyKey
    else if old.hotkeyKey ≠ "" then old.hotkeyKey
    else ""
  let lang := if old.language = "" then "auto" else old.language
  let mode := if old.recordMode = "" then "hold" else old.recordMode
  let modelName := if old.modelName = "" then "base-q5_1" else old.modelName
  let preset : Preset :=
    { id := freshID
      name := "Default"
      modelName := modelName
      keepModelLoaded := false
      inputMode := mode
      hotkey := hotkey
      language := lang
      useKBLayout := false
      keepHistory := true
      enabled := false }
  { microphoneID := old.microphoneID
    modelsDir := old.modelsDir
    theme := ""
    uiLang := ""
    closeAction := ""
    autoStart := false
    startMinimized := false
    backend := ""
    presets := [preset] }

/-- The repository's own migration test case `full old config with mod+key`
from internal/config/config_test.go. -/
def oldCfgFull : OldConfig :=
  { modelName := "large-v3", modelsDir := "/tmp/models", language := "en",
    translate := false, hotkeyMod := "ctrl", hotkeyKey := "f1",
    microphoneID := "mic-1", autoStart := false, recordMode := "toggle",
    outputMode := "" }

/-- C4: on a legacy config whose chord fields produce the non-empty chord
`"ctrl+f1"`, migration maps every field as the claim states except the
enabled flag, which the code pins to `false`; the repository's own test
`TestMigrateOldConfig` expects `true` here, so the code contradicts its
tests and the claim describes the intended behaviour. -/
theorem migrateOldConfig_enabled_pinned_false :
    (migrateOldConfig "id-1" oldCfgFull).presets =
      [{ id := "id-1", name := "Default", modelName := "large-v3",
         keepModelLoaded := false, inputMode := "toggle", hotkey := "ctrl+f1",
         language := "en", useKBLayout := false, keepHistory := true,
         enabled := false }] ∧
    "ctrl+f1" ≠ "" := by
  exact ⟨rfl, by decide⟩

/-! ### `PresetService.ReorderPresets` (services/preset.go) -/

/-- Go map insert (`byID[p.ID] = p`): replace an existing key, else append. -/
def assocSet (m : List (String × Preset)) (k : String) (v : Preset) :
    List (String × Preset) :=
  match m with
  | [] => [(k, v)]
  | (k', v') :: rest =>
    if k' = k then (k, v) :: rest else (k', v') :: assocSet rest k v

/-- Go map lookup (`p, ok := byID[id]`). -/
def assocGet (m : List (String × Preset)) (k : String) : Option Preset :=
  (m.find? (fun e => e.1 = k)).map (fun e => e.2)

/-- The `byID` map `ReorderPresets` builds by ranging over the presets. -/
def buildByID (ps : List Preset) : List (String × Preset) :=
  ps.foldl (fun m p => assocSet m p.id p) []

/-- The lookup loop of `ReorderPresets`: append the preset for each id, or
fail on the first unknown id. -/
def reorderLoop (byID : List (String × Preset)) :
    List String → List Preset → Except String (List Preset)
  | [], acc => .ok acc
  | id :: rest, acc =>
    match assocGet byID id with
    | some p => reorderLoop byID rest (acc ++ [p])
    | none => .error ("unknown preset id: " ++ id)

/-- `PresetService.ReorderPresets`: reject on a length mismatch, then run
the lookup loop over the requested id order. -/
def reorderPresets (ps : List Preset) (ids : List String) :
    Except String (List Preset) :=
  if ids.length ≠ ps.length then .error "id count mismatch"
  else reorderLoop (buildByID ps) ids []

/-- The preset list held by the service after `ReorderPresets`: replaced on
success, untouched on failure (the early returns fire before the
assignment to `s.cfg.Presets`). -/
def reorderApply (ps : List Preset) (ids : List String) : List Preset :=
  match reorderPresets ps ids with
  | .ok r => r
  | .error _ => ps

theorem assocGet_assocSet_self (m : List (String × Preset)) (k : String)
    (v : Preset) : assocGet (assocSet m k v) k = some v := by
  induction m with
  | nil => simp [assocSet, assocGet, List.find?]
  | cons e rest ih =>
    obtain ⟨k', v'⟩ := e
    by_cases h : k' = k
    · simp [assocSet, h, assocGet, List.find?]
    · simpa [assocSet, h, assocGet, List.find?] using ih

theorem assocGet_assocSet_ne (m : List (String × Preset)) (k k' : String)
    (v : Preset) (h : k' ≠ k) :
    assocGet (assocSet m k v) k' = assocGet m k' := by
  induction m with
  | nil => simp [assocSet, assocGet, List.find?, Ne.symm h]
  | cons e rest ih =>
    obtain ⟨k0, v0⟩ := e
    by_cases h0 : k0 = k
    · subst h0
      simp [assocSet, assocGet, List.find?, h, Ne.symm h]
    · by_cases h1 : k0 = k'
      · subst h1
        simp [assocSet, h0, assocGet, List.find?]
      · simpa [assocSet, h0, assocGet, List.find?, h1] using ih

theorem assocGet_assocSet_cases (m : List (String × Preset)) (k id : String)
    (v w : Preset) (h : assocGet (assocSet m k v) id = some w) :
    (id = k ∧ w = v) ∨ assocGet m id = some w := by
  by_cases hk : id = k
  · subst hk
    rw [assocGet_assocSet_self] at h
    exact Or.inl ⟨rfl, (Option.some_inj.mp h).symm⟩
  · rw [assocGet_assocSet_ne m k id v hk] at h
    exact Or.inr h

theorem buildByID_aux_mem (ps : List Preset) :
    ∀ (m : List (String × Preset)) (id : String) (v : Preset),
      assocGet (ps.foldl (fun m p => assocSet m p.id p) m) id = some v →
      (v.id = id ∧ v ∈ ps) ∨ assocGet m id = some v := by
  induction ps with
  | nil => intro m id v h; exact Or.inr h
  | cons p rest ih =>
    intro m id v h
    rcases ih (assocSet m p.id p) id v h with h1 | h1
    · exact Or.inl ⟨h1.1, List.mem_cons_of_mem p h1.2⟩
    · rcases assocGet_assocSet_cases m p.id id p v h1 with ⟨he, hv⟩ | h2
      · refine Or.inl ⟨?_, ?_⟩
        · rw [hv]; exact he.symm
        · rw [hv]; exact List.mem_cons_self p rest
      · exact Or.inr h2

theorem buildByID_mem (ps : List Preset) (id : String) (v : Preset)
    (h : assocGet (buildByID ps) id = some v) : v.id = id ∧ v ∈ ps := by
  rcases buildByID_aux_mem ps [] id v h with h1 | h1
  · exact h1
  · simp [assocGet, List.find?] at h1

theorem buildByID_aux_untouched (ps : List Preset) :
    ∀ (m : List (String × Preset)) (id : String),
      id ∉ ps.map Preset.id →
      assocGet (ps.foldl (fun m p => assocSet m p.id p) m) id = assocGet m id := by
  induction ps with
  | nil => intro m id _; rfl
  | cons p rest ih =>
    intro m id hid
    simp only [List.map_cons, List.mem_cons] at hid
    push_neg at hid
    rw [List.foldl_cons, ih (assocSet m p.id p) id hid.2,
      assocGet_assocSet_ne m p.id id p hid.1]

theorem buildByID_aux_get_of_mem (ps : List Preset)
    (hps : (ps.map Preset.id).Nodup) :
    ∀ (m : List (String × Preset)) (p : Preset), p ∈ ps →
      assocGet (ps.foldl (fun m q => assocSet m q.id q) m) p.id = some p := by
  induction ps with
  | nil => intro m p h; cases h
  | cons q rest ih =>
    intro m p hp
    simp only [List.map_cons, List.nodup_cons] at hps
    rcases List.mem_cons.mp hp with h | h
    · subst h
      rw [List.foldl_cons,
        buildByID_aux_untouched rest (assocSet m p.id p) p.id hps.1]
      exact assocGet_assocSet_self m p.id p
    · rw [List.foldl_cons]
      exact ih hps.2 (assocSet m q.id q) p h

theorem buildByID_get_of_mem (ps : List Preset)
    (hps : (ps.map Preset.id).Nodup) (p : Preset) (hp : p ∈ ps) :
    assocGet (buildByID ps) p.id = some p :=
  buildByID_aux_get_of_mem ps hps [] p hp

theorem reorderLoop_ok_isSome (byID : List (String × Preset)) :
    ∀ (ids : List String) (acc r : List Preset),
      reorderLoop byID ids acc = .ok r →
      ∀ id ∈ ids, (assocGet byID id).isSome := by
  intro ids
  induction ids with
  | nil => intro acc r _ id h; cases h
  | cons i rest ih =>
    intro acc r h id hid
    unfold reorderLoop at h
    cases hv : assocGet byID i with
    | none => rw [hv] at h; cases h
    | some p =>
      rw [hv] at h
      rcases List.mem_cons.mp hid with he | he
      · subst he; simp [hv]
      · exact ih (acc ++ [p]) r h id he

theorem reorderLoop_ok_eq (byID : List (String × Preset)) :
    ∀ (ids : List String) (acc r : List Preset),
      reorderLoop byID ids acc = .ok r →
      r = acc ++ ids.map (fun id => (assocGet byID id).getD default) := by
  intro ids
  induction ids with
  | nil =>
    intro acc r h
    unfold reorderLoop at h
    cases h
    simp
  | cons i rest ih =>
    intro acc r h
    unfold reorderLoop at h
    cases hv : assocGet byID i with
    | none => rw [hv] at h; cases h
    | some p =>
      rw [hv] at h
      have := ih (acc ++ [p]) r h
      simp [this, hv]

theorem reorderLoop_ok_of_all_some (byID : List (String × Preset)) :
    ∀ (ids : List String) (acc : List Preset),
      (∀ id ∈ ids, (assocGet byID id).isSome) →
      ∃ r, reorderLoop byID ids acc = .ok r := by
  intro ids
  induction ids with
  | nil => intro acc _; exact ⟨acc, rfl⟩
  | cons i rest ih =>
    intro acc hall
    have hi := hall i (List.mem_cons_self i rest)
    cases hv : assocGet byID i with
    | none => rw [hv] at hi; cases hi
    | some p =>
      obtain ⟨r, hr⟩ := ih (acc ++ [p]) (fun id hid => hall id (List.mem_cons_of_mem i hid))
      exact ⟨r, by unfold reorderLoop; rw [hv]; exact hr⟩

/-- C5, amended: under the configuration invariant that preset ids are
pairwise distinct, and for a duplicate-free requested id list,
`ReorderPresets` succeeds exactly when the ids are a permutation of the
current preset ids, and on success it returns the same presets (as a
multiset) in the requested order; on failure the preset list is unchanged.
Without the duplicate-free condition the code also accepts a list that
repeats an existing id (see the counterexample), so the claim's
"iff a permutation" is too strong. -/
theorem reorderPresets_perm (ps : List Preset) (ids : List String)
    (hps : (ps.map Preset.id).Nodup) (hids : ids.Nodup) :
    ((reorderPresets ps ids).isOk ↔ ids.Perm (ps.map Preset.id)) ∧
    (∀ r, reorderPresets ps ids = .ok r →
      r.Perm ps ∧ r.map Preset.id = ids) ∧
    (∀ e, reorderPresets ps ids = .error e → reorderApply ps ids = ps) := by
  have hlenm : (ps.map Preset.id).length = ps.length := List.length_map ps Preset.id
  refine ⟨⟨?_, ?_⟩, ?_, ?_⟩
  · intro hok
    unfold reorderPresets at hok
    split at hok
    · cases hok
    · rename_i hlen
      push_neg at hlen
      cases hloop : reorderLoop (buildByID ps) ids [] with
      | error e => rw [hloop] at hok; cases hok
      | ok r =>
      have hr := hloop
      have hsub : ids ⊆ ps.map Preset.id := by
        intro id hid
        have hs := reorderLoop_ok_isSome (buildByID ps) ids [] r hr id hid
        obtain ⟨v, hv⟩ := Option.isSome_iff_exists.mp hs
        obtain ⟨hvid, hvmem⟩ := buildByID_mem ps id v hv
        exact hvid ▸ List.mem_map_of_mem Preset.id hvmem
      exact (List.subperm_of_subset hids hsub).perm_of_length_le (by omega)
  · intro hperm
    have hlen : ids.length = ps.length := by
      have := hperm.length_eq
      omega
    have hall : ∀ id ∈ ids, (assocGet (buildByID ps) id).isSome := by
      intro id hid
      have hmem : id ∈ ps.map Preset.id := hperm.subset hid
      obtain ⟨p, hp, hpid⟩ := List.mem_map.mp hmem
      rw [← hpid, buildByID_get_of_mem ps hps p hp]
      rfl
    obtain ⟨r, hr⟩ := reorderLoop_ok_of_all_some (buildByID ps) ids [] hall
    unfold reorderPresets
    rw [if_neg (by omega), hr]
    rfl
  · intro r hok
    unfold reorderPresets at hok
    split at hok
    · cases hok
    · rename_i hlen
      push_neg at hlen
      have hperm : ids.Perm (ps.map Preset.id) := by
        have hsub : ids ⊆ ps.map Preset.id := by
          intro id hid
          have hs := reorderLoop_ok_isSome (buildByID ps) ids [] r hok id hid
          obtain ⟨v, hv⟩ := Option.isSome_iff_exists.mp hs
          obtain ⟨hvid, hvmem⟩ := buildByID_mem ps id v hv
          exact hvid ▸ List.mem_map_of_mem Preset.id hvmem
        exact (List.subperm_of_subset hids hsub).perm_of_length_le (by omega)
      have hreq := reorderLoop_ok_eq (buildByID ps) ids [] r hok
      simp only [List.nil_append] at hreq
      have hget : ∀ p ∈ ps,
          (assocGet (buildByID ps) p.id).getD default = p := by
        intro p hp
        rw [buildByID_get_of_mem ps hps p hp]
        rfl
      constructor
      · have hps_eq :
            (ps.map Preset.id).map
              (fun id => (assocGet (buildByID ps) id).getD default) = ps := by
          rw [List.map_map]
          calc ps.map ((fun id => (assocGet (buildByID ps) id).getD default) ∘
                  Preset.id)
              = ps.map id := List.map_congr_left (fun p hp => hget p hp)
            _ = ps := List.map_id ps
        have hmap := hperm.map
          (fun id => (assocGet (buildByID ps) id).getD default)
        rw [hps_eq] at hmap
        rw [hreq]
        exact hmap
      · rw [hreq, List.map_map]
        have : ∀ id ∈ ids,
            (Preset.id ∘ fun i => (assocGet (buildByID ps) i).getD default) id
              = id := by
          intro id hid
          obtain ⟨p, hp, hpid⟩ := List.mem_map.mp (hperm.subset hid)
          simp only [Function.comp]
          rw [← hpid, buildByID_get_of_mem ps hps p hp]
          rfl
        calc ids.map (Preset.id ∘ fun i => (assocGet (buildByID ps) i).getD default)
            = ids.map id := List.map_congr_left this
          _ = ids := List.map_id ids
  · intro e he
    unfold reorderApply
    rw [he]

/-- A two-preset demonstration configuration with distinct ids. -/
def presetA : Preset :=
  { id := "a", name := "A", modelName := "base-q5_1", keepModelLoaded := false,
    inputMode := "hold", hotkey := "", language := "auto",
    useKBLayout := false, keepHistory := true, enabled := false }

/-- The second demonstration preset. -/
def presetB : Preset := { presetA with id := "b", name := "B" }

/-- The demonstration preset list. -/
def demoPresets : List Preset := [presetA, presetB]

/-- C5 witness: the amended equivalence applied to a concrete two-preset
configuration and the reversed id list. -/
theorem reorderPresets_perm_witness :
    (reorderPresets demoPresets ["b", "a"]).isOk ↔
      (["b", "a"] : List String).Perm (demoPresets.map Preset.id) :=
  (reorderPresets_perm demoPresets ["b", "a"] (by decide) (by decide)).1

/-- C5 counterexample to the claim as stated: with presets `a, b`, the id
list `["a", "a"]` is not a permutation of the preset ids, yet
`ReorderPresets` accepts it, duplicating preset `a` and dropping `b`. -/
theorem reorderPresets_duplicate_id_accepted :
    reorderPresets demoPresets ["a", "a"] = .ok [presetA, presetA] ∧
    ¬ (["a", "a"] : List String).Perm ["a", "b"] ∧
    ¬ [presetA, presetA].Perm demoPresets :=
  ⟨rfl, by decide, by decide⟩

/-! ### `WhisperEngine.TranscribeLong` (services/whisper.go) -/

/-- `chunkSeconds` constant from whisper.go. -/
def chunkSeconds : Nat := 25

/-- `chunkSamples` constant from whisper.go (25 s at 16 kHz). -/
def chunkSamples : Nat := chunkSeconds * 16000

/-- Observable events of `TranscribeLong`: an `onProgress(current, total)`
callback invocation, and a `Transcribe` call on the half-open sample range
`[start, stop)`. -/
inductive WhisperEv where
  | progress (current total : Nat)
  | transcribeCall (start stop : Nat)
deriving DecidableEq, Repr

/-- The chunk loop of `TranscribeLong` (`for i := 0; i < len(samples);
i += chunkSamples`). `tr` models `WhisperEngine.Transcribe` on a sample
slice; the samples are polymorphic because the Go code only slices and
measures the PCM. A chunk whose transcription errors is skipped
(`continue`); each successful chunk is cleaned and collected when
non-empty. Events are returned in emission order. The structural fuel
argument is initialised with the chunk count, which is exactly the number
of iterations of the Go loop, so it never runs out. -/
def transcribeLongLoop {α : Type} (tr : List α → Except String String)
    (samples : List α) (totalChunks : Nat) :
    Nat → Nat → Nat → List WhisperEv × List String
  | 0, _, _ => ([], [])
  | fuel + 1, i, chunk =>
    if i < samples.length then
      match tr ((samples.drop i).take chunkSamples) with
      | .error _ =>
          (.progress (chunk + 1) totalChunks ::
            .transcribeCall i (min (i + chunkSamples) samples.length) ::
            (transcribeLongLoop tr samples totalChunks fuel (i + chunkSamples)
              (chunk + 1)).1,
           (transcribeLongLoop tr samples totalChunks fuel (i + chunkSamples)
              (chunk + 1)).2)
      | .ok text =>
          (.progress (chunk + 1) totalChunks ::
            .transcribeCall i (min (i + chunkSamples) samples.length) ::
            (transcribeLongLoop tr samples totalChunks fuel (i + chunkSamples)
              (chunk + 1)).1,
           if cleanWhisperOutput text = "" then
             (transcribeLongLoop tr samples totalChunks fuel (i + chunkSamples)
               (chunk + 1)).2
           else
             cleanWhisperOutput text ::
               (transcribeLongLoop tr samples totalChunks fuel (i + chunkSamples)
                 (chunk + 1)).2)
    else ([], [])

/-- `WhisperEngine.TranscribeLong`: one chunk when the PCM fits in
`chunkSamples`, otherwise the chunk loop followed by a single-space join
of the collected parts (`strings.Join(parts, " ")`). The progress callback
is invoked before each `Transcribe` call. -/
def transcribeLong {α : Type} (tr : List α → Except String String)
    (samples : List α) : List WhisperEv × Except String String :=
  let totalChunks := (samples.length + chunkSamples - 1) / chunkSamples
  if totalChunks ≤ 1 then
    match tr samples with
    | .error e => ([.progress 1 1, .transcribeCall 0 samples.length], .error e)
    | .ok text =>
        ([.progress 1 1, .transcribeCall 0 samples.length],
         .ok (cleanWhisperOutput text))
  else
    let r := transcribeLongLoop tr samples totalChunks totalChunks 0 0
    (r.1, .ok (String.intercalate " " r.2))

theorem transcribeLongLoop_succ {α : Type} (tr : List α → Except String String)
    (samples : List α) (tot fuel i chunk : Nat) (hi : i < samples.length) :
    transcribeLongLoop tr samples tot (fuel + 1) i chunk =
      (WhisperEv.progress (chunk + 1) tot ::
        WhisperEv.transcribeCall i (min (i + chunkSamples) samples.length) ::
        (transcribeLongLoop tr samples tot fuel (i + chunkSamples) (chunk + 1)).1,
       match tr ((samples.drop i).take chunkSamples) with
       | .error _ =>
          (transcribeLongLoop tr samples tot fuel (i + chunkSamples) (chunk + 1)).2
       | .ok text =>
          if cleanWhisperOutput text = "" then
            (transcribeLongLoop tr samples tot fuel (i + chunkSamples) (chunk + 1)).2
          else
            cleanWhisperOutput text ::
              (transcribeLongLoop tr samples tot fuel (i + chunkSamples)
                (chunk + 1)).2) := by
  rw [transcribeLongLoop, if_pos hi]
  cases tr ((samples.drop i).take chunkSamples) <;> rfl

/-- Definitional unfolding of `transcribeLong`, stated once so proofs can
rewrite with it (a plain `rfl` fact about the definition). -/
theorem transcribeLong_unfold {α : Type} (tr : List α → Except String String)
    (samples : List α) :
    transcribeLong tr samples =
      (let totalChunks := (samples.length + chunkSamples - 1) / chunkSamples
       if totalChunks ≤ 1 then
         match tr samples with
         | .error e => ([.progress 1 1, .transcribeCall 0 samples.length], .error e)
         | .ok text =>
             ([.progress 1 1, .transcribeCall 0 samples.length],
              .ok (cleanWhisperOutput text))
       else
         let r := transcribeLongLoop tr samples totalChunks totalChunks 0 0
         (r.1, .ok (String.intercalate " " r.2))) := rfl

/-- C6: at exactly `25·16000` samples `TranscribeLong` runs a single chunk
with one `(1, 1)` progress call before it; at `25·16000 + 1` samples it
runs exactly two contiguous non-overlapping chunks `[0, 25·16000)` and
`[25·16000, 25·16000+1)`, emitting `(1, 2)` then `(2, 2)` each before the
corresponding `Transcribe` call, and joins the non-empty cleaned chunk
results with a single space. -/
theorem transcribeLong_chunk_boundary {α : Type}
    (tr : List α → Except String String) (samples : List α) :
    (samples.length = chunkSamples →
      (transcribeLong tr samples).1 =
        [.progress 1 1, .transcribeCall 0 chunkSamples] ∧
      (transcribeLong tr samples).2 = (tr samples).map cleanWhisperOutput) ∧
    (samples.length = chunkSamples + 1 →
      (transcribeLong tr samples).1 =
        [.progress 1 2, .transcribeCall 0 chunkSamples,
         .progress 2 2, .transcribeCall chunkSamples (chunkSamples + 1)] ∧
      (∀ t1 t2, tr (samples.take chunkSamples) = .ok t1 →
        tr (samples.drop chunkSamples) = .ok t2 →
        (transcribeLong tr samples).2 = .ok (String.intercalate " "
          ((if cleanWhisperOutput t1 = "" then [] else [cleanWhisperOutput t1]) ++
           (if cleanWhisperOutput t2 = "" then [] else [cleanWhisperOutput t2]))))) := by
  have hc : chunkSamples = 400000 := rfl
  constructor
  · intro hlen
    have htot : (samples.length + chunkSamples - 1) / chunkSamples = 1 := by
      rw [hlen, hc]
    rw [transcribeLong_unfold, htot]
    simp only [le_refl, if_true, hlen]
    cases tr samples <;> simp [Except.map]
  · intro hlen
    have htot : (samples.length + chunkSamples - 1) / chunkSamples = 2 := by
      rw [hlen, hc]
    have h1 : (0 : Nat) < samples.length := by omega
    have h2 : chunkSamples < samples.length := by omega
    have hstop1 : min (0 + chunkSamples) samples.length = chunkSamples := by
      rw [hlen]; omega
    have hstop2 : min (chunkSamples + chunkSamples) samples.length
        = chunkSamples + 1 := by rw [hlen, hc]; omega
    have hslice1 : (samples.drop 0).take chunkSamples = samples.take chunkSamples := by
      simp
    have hslice2 : (samples.drop chunkSamples).take chunkSamples
        = samples.drop chunkSamples := by
      apply List.take_of_length_le
      rw [List.length_drop, hlen, hc]
      omega
    have hz : ∀ i c, transcribeLongLoop tr samples 2 0 i c = ([], []) :=
      fun i c => rfl
    have hstep2 := transcribeLongLoop_succ tr samples 2 0 chunkSamples 1 h2
    rw [hstop2, hslice2, hz] at hstep2
    have hstep1 := transcribeLongLoop_succ tr samples 2 1 0 0 h1
    rw [hstop1, hslice1] at hstep1
    simp only [Nat.zero_add] at hstep1 hstep2
    rw [hstep2] at hstep1
    have h20 : transcribeLongLoop tr samples 2 2 0 0
        = transcribeLongLoop tr samples 2 (1 + 1) 0 0 := rfl
    constructor
    · rw [transcribeLong_unfold, htot]
      simp only [Nat.reduceLeDiff, if_false]
      rw [h20, hstep1]
    · intro t1 t2 ht1 ht2
      rw [transcribeLong_unfold, htot]
      simp only [Nat.reduceLeDiff, if_false]
      rw [h20, hstep1, ht1, ht2]
      by_cases e1 : cleanWhisperOutput t1 = "" <;>
        by_cases e2 : cleanWhisperOutput t2 = "" <;>
          simp [e1, e2, String.intercalate]

/-- C6 witness: the two-chunk conclusion applied to a concrete constant
transcriber on a `chunkSamples + 1`-sample PCM. -/
theorem transcribeLong_chunk_boundary_witness :
    (List.replicate (chunkSamples + 1) (0 : Int)).length = chunkSamples + 1 ∧
    (transcribeLong (fun _ => Except.ok "hi")
        (List.replicate (chunkSamples + 1) (0 : Int))).1 =
      [.progress 1 2, .transcribeCall 0 chunkSamples,
       .progress 2 2, .transcribeCall chunkSamples (chunkSamples + 1)] := by
  have hlen : (List.replicate (chunkSamples + 1) (0 : Int)).length
      = chunkSamples + 1 := List.length_replicate _ _
  exact ⟨hlen,
    ((transcribeLong_chunk_boundary (fun _ => Except.ok "hi")
      (List.replicate (chunkSamples + 1) (0 : Int))).2 hlen).1⟩

/-! ### Preset orchestrator (services/preset.go)

State owned by `PresetService` and protected by its single mutex `s.mu`.
`StartRecording`'s busy check and `"recording"` write form one critical
section (`startRecordingCrit`); `StopRecording` is a sequence of critical
sections separated by the unlocked engine-load and inference calls.
-/

/-- A preset's runtime recording state. Go stores these as the strings
`"idle" | "recording" | "processing"`; a missing map key reads as the zero
value `""`, which is modelled by `stLookup` returning `none`. -/
inductive RState where
  | idle
  | recording
  | processing
deriving DecidableEq, Repr

/-- The fields of `PresetService` that the recording pipeline touches:
preset list, per-preset state map, the recording preset id, the engine
cache keys, the last transcription text, and whether `s.audio` is
non-nil. -/
structure OrchState where
  presets : List Preset
  states : List (String × RState)
  recordingID : String
  engines : List String
  lastText : String
  audioInit : Bool
deriving DecidableEq, Repr

/-- Go map read `s.states[id]`. -/
def stLookup (m : List (String × RState)) (id : String) : Option RState :=
  (m.find? (fun e => e.1 = id)).map (fun e => e.2)

/-- Go map write `s.states[id] = v`: replace an existing key, else append. -/
def stSet (m : List (String × RState)) (id : String) (v : RState) :
    List (String × RState) :=
  match m with
  | [] => [(id, v)]
  | (k, w) :: rest =>
    if k = id then (id, v) :: rest else (k, w) :: stSet rest id v

/-- The states `StartRecording` treats as active. -/
def isBusyState (st : RState) : Bool :=
  st = RState.recording || st = RState.processing

/-- The busy check of `StartRecording` (`for _, st := range s.states`). -/
def anyBusy (m : List (String × RState)) : Bool := m.any (fun e => isBusyState e.2)

/-- `findPresetByID`. -/
def findPreset (ps : List Preset) (id : String) : Option Preset :=
  ps.find? (fun p => p.id = id)

/-- The error outcomes of `StartRecording`. -/
inductive StartError where
  | busy
  | notFound
  | audioNil
  | deviceFailed
deriving DecidableEq, Repr

/-- The single critical section of `StartRecording` (preset.go:322-351):
the busy check over every preset state and, when it passes, the write of
the `"recording"` state and of `recordingID` happen under one acquisition
of `s.mu`. -/
def startRecordingCrit (s : OrchState) (pid : String) :
    Option StartError × OrchState :=
  if anyBusy s.states then (some .busy, s)
  else if (findPreset s.presets pid).isNone then (some .notFound, s)
  else if !s.audioInit then (some .audioNil, s)
  else (none,
    { s with states := stSet s.states pid RState.recording, recordingID := pid })

/-- `StartRecording` in full: the critical section, then `audio.Start()`
outside the lock (its outcome is `audioStartOk`); on device failure the
state reverts to idle in a second critical section. -/
def startRecording (s : OrchState) (pid : String) (audioStartOk : Bool) :
    Option StartError × OrchState :=
  match startRecordingCrit s pid with
  | (some e, s1) => (some e, s1)
  | (none, s1) =>
    if audioStartOk then (none, s1)
    else (some .deviceFailed,
      { s1 with states := stSet s1.states pid RState.idle, recordingID := "" })

/-- The state effect of the first critical section of `StopRecording`
(preset.go:378-402): return unchanged when the preset is not recording;
otherwise stop audio, write `"processing"`, clear `recordingID`, and
revert to idle at once when the preset has vanished from the config. -/
def stopRecordingCrit (s : OrchState) (pid : String) : OrchState :=
  if stLookup s.states pid ≠ some RState.recording then s
  else
    match findPreset s.presets pid with
    | none =>
      { s with
        states := stSet (stSet s.states pid RState.processing) pid RState.idle,
        recordingID := "" }
    | some _ =>
      { s with states := stSet s.states pid RState.processing, recordingID := "" }

/-- What the collaborators return during one `StopRecording` call:
`samples` from `audio.Stop()`, the outcome of `getOrLoadEngine`,
`detectKeyboardLanguage()`, and the outcome of `TranscribeLong`. -/
structure StopEnv (α : Type) where
  samples : List α
  engineLoad : Except String Unit
  kbLang : String
  transcription : Except String String
deriving Repr

/-- Calls `StopRecording` makes on its collaborators, in order. -/
inductive OrchEv where
  | audioStop
  | engineLoad (pid : String)
  | transcribeLongCall (pid : String)
  | paste (text : String)
  | historyAdd (text lang : String)
  | engineClose (pid : String)
deriving DecidableEq, Repr

/-- The `{ text, error }` envelope returned to the caller. -/
structure TranscriptionResult where
  text : String
  error : String
deriving DecidableEq, Repr

/-- `PresetService.StopRecording` (preset.go:378-501) as a sequential
function: result envelope, Go error, new orchestrator state, and the trace
of collaborator calls. -/
def stopRecording {α : Type} (s : OrchState) (pid : String) (env : StopEnv α) :
    TranscriptionResult × Option String × OrchState × List OrchEv :=
  if stLookup s.states pid ≠ some RState.recording then
    ({ text := "", error := "" }, none, s, [])
  else
    let s1 := { s with
      states := stSet s.states pid RState.processing, recordingID := "" }
    match findPreset s.presets pid with
    | none =>
      ({ text := "", error := "" }, some "preset not found",
       { s1 with states := stSet s1.states pid RState.idle }, [.audioStop])
    | some p =>
      if env.samples.length < 8000 then
        ({ text := "", error := "" }, none,
         { s1 with states := stSet s1.states pid RState.idle }, [.audioStop])
      else
        match env.engineLoad with
        | .error e =>
          ({ text := "", error := "Model load failed: " ++ e }, none,
           { s1 with states := stSet s1.states pid RState.idle },
           [.audioStop, .engineLoad pid])
        | .ok _ =>
          let lang0 := if p.language = "" then "auto" else p.language
          let lang := if p.useKBLayout ∧ env.kbLang ≠ "" then env.kbLang else lang0
          match env.transcription with
          | .error e =>
            ({ text := "", error := "Transcription failed: " ++ e }, none,
             { s1 with states := stSet s1.states pid RState.idle },
             [.audioStop, .engineLoad pid, .transcribeLongCall pid])
          | .ok text =>
            let result0 := trimSpace text
            let result := if isHallucination result0 then "" else result0
            let tailEvs :=
              (if result ≠ "" then
                OrchEv.paste result ::
                  (if p.keepHistory then [OrchEv.historyAdd result lang] else [])
               else []) ++
              (if ¬ p.keepModelLoaded ∧ pid ∈ s1.engines then
                [OrchEv.engineClose pid] else [])
            ({ text := result, error := "" }, none,
             { s1 with
               states := stSet s1.states pid RState.idle,
               engines := if ¬ p.keepModelLoaded then s1.engines.erase pid
                          else s1.engines,
               lastText := result },
             [.audioStop, .engineLoad pid, .transcribeLongCall pid] ++ tailEvs)

/-- Number of entries of the state map that are recording or processing. -/
def busyCount (m : List (String × RState)) : Nat :=
  (m.filter (fun e => isBusyState e.2)).length

/-- One atomic critical section of the orchestrator mutex, restricted to
the mutations performed by `StartRecording` and `StopRecording` (hotkey
press/release callbacks, toggle presses and the auto-stop timer only ever
call these two). `startCrit` is the busy-check-plus-write section;
`startRevert` is the device-failure revert; `stopCrit` is the first
section of `StopRecording`; `stopSetIdle` covers its short-sample,
engine-failure and transcription-failure reverts; `stopFinish` is its
final section (idle write, engine eviction, last-text update). -/
inductive OrchStep : OrchState → OrchState → Prop
  | startCrit (s : OrchState) (pid : String) :
      OrchStep s (startRecordingCrit s pid).2
  | startRevert (s : OrchState) (pid : String) :
      OrchStep s
        { s with states := stSet s.states pid RState.idle, recordingID := "" }
  | stopCrit (s : OrchState) (pid : String) :
      OrchStep s (stopRecordingCrit s pid)
  | stopSetIdle (s : OrchState) (pid : String) :
      OrchStep s { s with states := stSet s.states pid RState.idle }
  | stopFinish (s : OrchState) (pid : String) (result : String)
      (eng : List String) :
      OrchStep s
        { s with states := stSet s.states pid RState.idle, engines := eng,
                 lastText := result }

theorem busyCount_stSet_le (m : List (String × RState)) (id : String)
    (v : RState) :
    busyCount (stSet m id v) ≤
      busyCount m + (if isBusyState v then 1 else 0) := by
  induction m with
  | nil => cases h : isBusyState v <;> simp [stSet, busyCount, List.filter, h]
  | cons e rest ih =>
    obtain ⟨k, w⟩ := e
    by_cases hk : k = id
    · subst hk
      simp only [stSet, if_pos rfl, busyCount, List.filter]
      cases hv : isBusyState v <;> cases hw : isBusyState w <;>
        simp_all [busyCount]
    · simp only [stSet, if_neg hk, busyCount, List.filter]
      cases hw : isBusyState w <;> simp_all [busyCount]
      omega

theorem busyCount_eq_zero_of_not_anyBusy (m : List (String × RState))
    (h : anyBusy m = false) : busyCount m = 0 := by
  induction m with
  | nil => rfl
  | cons e rest ih =>
    simp only [anyBusy, List.any_cons, Bool.or_eq_false_iff] at h
    simp only [busyCount, List.filter, h.1]
    exact ih h.2

theorem busyCount_stSet_recording (m : List (String × RState)) (id : String)
    (h : anyBusy m = false) :
    busyCount (stSet m id RState.recording) ≤ 1 := by
  have h1 := busyCount_stSet_le m id RState.recording
  have h2 := busyCount_eq_zero_of_not_anyBusy m h
  simp [isBusyState] at h1
  omega

theorem busyCount_stSet_idle (m : List (String × RState)) (id : String) :
    busyCount (stSet m id RState.idle) ≤ busyCount m := by
  have h1 := busyCount_stSet_le m id RState.idle
  simpa [isBusyState] using h1

theorem busyCount_stSet_processing (m : List (String × RState)) (id : String)
    (h : stLookup m id = some RState.recording) :
    busyCount (stSet m id RState.processing) = busyCount m := by
  induction m with
  | nil => simp [stLookup, List.find?] at h
  | cons e rest ih =>
    obtain ⟨k, w⟩ := e
    by_cases hk : k = id
    · subst hk
      have hw : w = RState.recording := by
        simpa [stLookup, List.find?] using h
      subst hw
      simp [stSet, busyCount, List.filter, isBusyState]
    · have h2 : stLookup rest id = some RState.recording := by
        simpa [stLookup, List.find?, hk] using h
      simp only [stSet, if_neg hk, busyCount, List.filter]
      cases hw : isBusyState w <;> simp_all [busyCount]

/-- Each atomic critical section preserves "at most one busy preset". -/
theorem orchStep_preserves (s s' : OrchState) (hinv : busyCount s.states ≤ 1)
    (hstep : OrchStep s s') : busyCount s'.states ≤ 1 := by
  cases hstep with
  | startCrit pid =>
    unfold startRecordingCrit
    by_cases hb : anyBusy s.states
    · simpa [hb] using hinv
    · simp only [Bool.not_eq_true] at hb
      by_cases hf : (findPreset s.presets pid).isNone
      · simpa [hb, hf] using hinv
      · by_cases ha : s.audioInit
        · simpa [hb, hf, ha] using busyCount_stSet_recording s.states pid hb
        · simpa [hb, hf, ha] using hinv
  | startRevert pid =>
    exact le_trans (busyCount_stSet_idle s.states pid) hinv
  | stopCrit pid =>
    unfold stopRecordingCrit
    by_cases hr : stLookup s.states pid = some RState.recording
    · rw [if_neg (by simpa using hr)]
      cases hf : findPreset s.presets pid with
      | none =>
        have h1 := busyCount_stSet_idle
          (stSet s.states pid RState.processing) pid
        have h2 := busyCount_stSet_processing s.states pid hr
        simpa using le_trans h1 (by omega)
      | some p =>
        have h2 := busyCount_stSet_processing s.states pid hr
        simpa using le_of_eq_of_le h2 hinv
    · rw [if_pos (by simpa using hr)]
      exact hinv
  | stopSetIdle pid =>
    exact le_trans (busyCount_stSet_idle s.states pid) hinv
  | stopFinish pid result eng =>
    exact le_trans (busyCount_stSet_idle s.states pid) hinv

/-- C1: global mutual exclusion. Along every sequence of orchestrator
critical sections from a state with at most one busy preset, at most one
preset is ever in `recording` or `processing`; and whenever any preset is
busy, `StartRecording` returns the busy error and leaves the whole
orchestrator state unchanged. The busy check and the `"recording"` write
are one atomic step of the model (`startRecordingCrit`), mirroring the
single `s.mu` critical section at preset.go:322-351. -/
theorem orchestrator_mutual_exclusion :
    (∀ init s : OrchState, busyCount init.states ≤ 1 →
      Relation.ReflTransGen OrchStep init s → busyCount s.states ≤ 1) ∧
    (∀ (s : OrchState) (pid : String) (audioStartOk : Bool),
      anyBusy s.states = true →
      startRecording s pid audioStartOk = (some .busy, s)) := by
  constructor
  · intro init s hinit hsteps
    induction hsteps with
    | refl => exact hinit
    | tail _ hstep ih => exact orchStep_preserves _ _ ih hstep
  · intro s pid audioStartOk hb
    unfold startRecording startRecordingCrit
    rw [if_pos hb]

/-- A demonstration orchestrator state: one idle preset `a`. -/
def demoOrch : OrchState :=
  { presets := [presetA], states := [("a", RState.idle)], recordingID := "",
    engines := [], lastText := "", audioInit := true }

/-- A demonstration state in which preset `a` is recording. -/
def demoBusyOrch : OrchState :=
  { demoOrch with states := [("a", RState.recording)], recordingID := "a" }

/-- C1 witness: the invariant after one concrete `StartRecording` critical
section, and the busy rejection at a concrete busy state. -/
theorem orchestrator_mutual_exclusion_witness :
    busyCount (startRecordingCrit demoOrch "a").2.states ≤ 1 ∧
    startRecording demoBusyOrch "b" true = (some .busy, demoBusyOrch) :=
  ⟨orchestrator_mutual_exclusion.1 demoOrch _ (by decide)
      (Relation.ReflTransGen.single (OrchStep.startCrit demoOrch "a")),
   orchestrator_mutual_exclusion.2 demoBusyOrch "b" true (by decide)⟩

theorem stLookup_stSet_self (m : List (String × RState)) (id : String)
    (v : RState) : stLookup (stSet m id v) id = some v := by
  induction m with
  | nil => simp [stSet, stLookup, List.find?]
  | cons e rest ih =>
    obtain ⟨k, w⟩ := e
    by_cases hk : k = id
    · simp [stSet, hk, stLookup, List.find?]
    · simpa [stSet, hk, stLookup, List.find?] using ih

theorem stLookup_stSet_ne (m : List (String × RState)) (id q : String)
    (v : RState) (h : q ≠ id) :
    stLookup (stSet m id v) q = stLookup m q := by
  induction m with
  | nil => simp [stSet, stLookup, List.find?, Ne.symm h]
  | cons e rest ih =>
    obtain ⟨k, w⟩ := e
    by_cases hk : k = id
    · subst hk
      simp [stSet, stLookup, List.find?, Ne.symm h]
    · by_cases hq : k = q
      · subst hq
        simp [stSet, hk, stLookup, List.find?]
      · simpa [stSet, hk, stLookup, List.find?, hq] using ih

/-- C7: when a preset is recording and the captured PCM is shorter than
8000 samples (0.5 s at 16 kHz), `StopRecording` returns the empty envelope
with no error, makes no engine call (neither `getOrLoadEngine` nor
`TranscribeLong`; the only collaborator call is `audio.Stop()`), and the
preset's state ends at idle while every other preset's state is
untouched. -/
theorem stopRecording_short_pcm {α : Type} (s : OrchState) (pid : String)
    (env : StopEnv α)
    (hrec : stLookup s.states pid = some RState.recording)
    (hfound : (findPreset s.presets pid).isSome)
    (hshort : env.samples.length < 8000) :
    stopRecording s pid env =
      ({ text := "", error := "" }, none,
       { s with
         states := stSet (stSet s.states pid RState.processing) pid RState.idle,
         recordingID := "" },
       [OrchEv.audioStop]) ∧
    stLookup (stSet (stSet s.states pid RState.processing) pid RState.idle) pid
      = some RState.idle ∧
    (∀ q, q ≠ pid →
      stLookup (stSet (stSet s.states pid RState.processing) pid RState.idle) q
        = stLookup s.states q) := by
  refine ⟨?_, stLookup_stSet_self _ pid RState.idle, fun q hq => ?_⟩
  · unfold stopRecording
    rw [if_neg (by simpa using hrec)]
    obtain ⟨p, hp⟩ := Option.isSome_iff_exists.mp hfound
    rw [hp]
    simp only [if_pos hshort]
  · rw [stLookup_stSet_ne _ pid q RState.idle hq,
      stLookup_stSet_ne _ pid q RState.processing hq]

/-- C7 witness: a concrete recording preset stopped with empty PCM. -/
theorem stopRecording_short_pcm_witness :
    stopRecording demoBusyOrch "a"
        ({ samples := ([] : List Int), engineLoad := .ok (), kbLang := "",
           transcription := .ok "" } : StopEnv Int) =
      ({ text := "", error := "" }, none,
       { demoBusyOrch with
         states := stSet (stSet demoBusyOrch.states "a" RState.processing) "a"
           RState.idle,
         recordingID := "" },
       [OrchEv.audioStop]) :=
  (stopRecording_short_pcm demoBusyOrch "a" _ (by decide) (by decide)
    (by decide)).1

/-- C10: `StopRecording` on a preset that is not in the `"recording"`
state (idle, processing, or an unknown id) returns the empty envelope with
no error, performs no collaborator call, and leaves the whole orchestrator
state - preset states, engine cache, audio capturer, last text -
unchanged. -/
theorem stopRecording_not_recording_noop {α : Type} (s : OrchState)
    (pid : String) (env : StopEnv α)
    (h : stLookup s.states pid ≠ some RState.recording) :
    stopRecording s pid env = ({ text := "", error := "" }, none, s, []) := by
  unfold stopRecording
  rw [if_pos (by simpa using h)]

/-- C10 witness: stopping the idle demonstration preset is a no-op. -/
theorem stopRecording_not_recording_noop_witness :
    stopRecording demoOrch "a"
        ({ samples := ([] : List Int), engineLoad := .ok (), kbLang := "",
           transcription := .ok "" } : StopEnv Int) =
      ({ text := "", error := "" }, none, demoOrch, []) :=
  stopRecording_not_recording_noop demoOrch "a" _ (by decide)

/-! ### Text injection (`pasteText*`, services)

Each platform function is modelled over an environment record describing
the outcome of the external tools it shells out to. `finalClip` is the
clipboard content observable at completion + 600 ms, after the delayed
(500 ms) restore goroutine has had its chance to run.
-/

/-- Outcome of one injection: the returned Go error and the clipboard at
completion + 600 ms (`none` models an absent/unreadable clipboard). -/
structure PasteOutcome where
  err : Option String
  finalClip : Option String
deriving DecidableEq, Repr

/-- Environment of `pasteTextLinux`: the pre-injection clipboard as read
by `saveClipboardLinux` (`none` when both wl-paste and xclip fail),
whether `writeClipboardLinux` succeeds, and the three key-simulation
tools (`none` = absent from PATH, `some b` = present, run succeeds iff
`b`). -/
structure LinuxPasteEnv where
  initialClip : Option String
  writeOk : Bool
  ydotool : Option Bool
  wtype : Option Bool
  xdotool : Option Bool
deriving DecidableEq, Repr

/-- `simulateShiftInsertLinux`: try ydotool, then wtype, then xdotool; the
xdotool branch returns that command's own outcome; with no tool present
the chain fails. Returns the error, `none` on success. -/
def simulateShiftInsertLinux (env : LinuxPasteEnv) : Option String :=
  match env.ydotool with
  | some true => none
  | _ =>
    match env.wtype with
    | some true => none
    | _ =>
      match env.xdotool with
      | some true => none
      | some false => some "xdotool failed"
      | none =>
        some "no key simulation tool found (install ydotool, wtype, or xdotool)"

/-- `pasteTextLinux`: save the clipboard, write the text, simulate
Shift+Insert, then restore the saved clipboard 500 ms later — but only
when the simulation succeeded and a clipboard had been read; a synthesis
failure returns early with the text still on the clipboard. -/
def pasteTextLinux (text : String) (env : LinuxPasteEnv) : PasteOutcome :=
  if ¬ env.writeOk then
    { err := some "failed to write to clipboard", finalClip := env.initialClip }
  else
    match simulateShiftInsertLinux env with
    | some e =>
      { err := some ("failed to simulate paste: " ++ e), finalClip := some text }
    | none =>
      match env.initialClip with
      | some saved => { err := none, finalClip := some saved }
      | none => { err := none, finalClip := some text }

/-- Environment of `pasteTextDarwin`: the pre-injection clipboard as read
by `saveClipboardDarwin`, and the outcomes of `pbcopy` and of the
`osascript` Cmd+V simulation. -/
structure DarwinPasteEnv where
  initialClip : Option String
  pbcopyOk : Bool
  osascriptOk : Bool
deriving DecidableEq, Repr

/-- `pasteTextDarwin`: same protocol with pbcopy/osascript; an osascript
failure returns early with the text still on the clipboard. -/
def pasteTextDarwin (text : String) (env : DarwinPasteEnv) : PasteOutcome :=
  if ¬ env.pbcopyOk then
    { err := some "pbcopy failed", finalClip := env.initialClip }
  else if ¬ env.osascriptOk then
    { err := some "Cmd+V simulation failed", finalClip := some text }
  else
    match env.initialClip with
    | some saved => { err := none, finalClip := some saved }
    | none => { err := none, finalClip := some text }

/-- Environment of `pasteTextWindows`: the pre-injection clipboard as read
by `winClipRead`, and the outcomes of `winClipWrite` and `winSendCtrlV`. -/
structure WinPasteEnv where
  initialClip : Option String
  clipWriteOk : Bool
  sendInputOk : Bool
deriving DecidableEq, Repr

/-- `pasteTextWindows`: same protocol via the Win32 API; when SendInput is
blocked (UIPI) the function deliberately returns nil with the text left on
the clipboard and no restore. -/
def pasteTextWindows (text : String) (env : WinPasteEnv) : PasteOutcome :=
  if ¬ env.clipWriteOk then
    { err := some "clipboard write failed", finalClip := env.initialClip }
  else if ¬ env.sendInputOk then
    { err := none, finalClip := some text }
  else
    match env.initialClip with
    | some saved => { err := none, finalClip := some saved }
    | none => { err := none, finalClip := some text }

/-- C2, amended: on every platform, when the clipboard write and the
keystroke synthesis succeed and the pre-injection clipboard was readable,
the injection ends (observably by completion + 600 ms) with the original
clipboard content restored; when the keystroke synthesis fails, the
transcribed text remains on the clipboard instead and nothing is
restored. -/
theorem pasteText_clipboard_restore (text c : String) :
    (∀ env : LinuxPasteEnv, env.initialClip = some c → env.writeOk = true →
      simulateShiftInsertLinux env = none →
      pasteTextLinux text env = { err := none, finalClip := some c }) ∧
    (∀ env : DarwinPasteEnv, env.initialClip = some c → env.pbcopyOk = true →
      env.osascriptOk = true →
      pasteTextDarwin text env = { err := none, finalClip := some c }) ∧
    (∀ env : WinPasteEnv, env.initialClip = some c → env.clipWriteOk = true →
      env.sendInputOk = true →
      pasteTextWindows text env = { err := none, finalClip := some c }) := by
  refine ⟨?_, ?_, ?_⟩
  · intro env hclip hw hs
    unfold pasteTextLinux
    rw [hs]
    simp [hw, hclip]
  · intro env hclip hw hs
    unfold pasteTextDarwin
    simp [hw, hs, hclip]
  · intro env hclip hw hs
    unfold pasteTextWindows
    simp [hw, hs, hclip]

/-- C2 witness: the restoration clauses applied at concrete
environments. -/
theorem pasteText_clipboard_restore_witness :
    pasteTextLinux "hello"
        { initialClip := some "PREV", writeOk := true, ydotool := some true,
          wtype := none, xdotool := none }
      = { err := none, finalClip := some "PREV" } ∧
    pasteTextWindows "hello"
        { initialClip := some "PREV", clipWriteOk := true, sendInputOk := true }
      = { err := none, finalClip := some "PREV" } :=
  ⟨(pasteText_clipboard_restore "hello" "PREV").1 _ rfl rfl rfl,
   (pasteText_clipboard_restore "hello" "PREV").2.2 _ rfl rfl rfl⟩

/-- C2 counterexample to the claim as stated: with pre-injection clipboard
`"PREV"` and the keystroke synthesis failing, the Windows injection
completes (with success) and the Linux injection returns (with an error),
in both cases leaving the transcribed text — not `"PREV"` — on the
clipboard at completion + 600 ms. -/
theorem pasteText_restore_fails_on_blocked_input :
    pasteTextWindows "hello"
        { initialClip := some "PREV", clipWriteOk := true, sendInputOk := false }
      = { err := none, finalClip := some "hello" } ∧
    pasteTextLinux "hello"
        { initialClip := some "PREV", writeOk := true, ydotool := none,
          wtype := none, xdotool := none }
      = { err := some ("failed to simulate paste: " ++
            "no key simulation tool found (install ydotool, wtype, or xdotool)"),
          finalClip := some "hello" } ∧
    (some "hello" : Option String) ≠ some "PREV" := by decide

/-- C3, amended: when every keystroke-synthesis path fails, the
transcribed text remains on the clipboard on every platform, but only the
Windows injection still returns success (nil error); the Linux and macOS
injections return the failure as an error. -/
theorem pasteText_synthesis_blocked (text : String) :
    (∀ env : WinPasteEnv, env.clipWriteOk = true → env.sendInputOk = false →
      pasteTextWindows text env = { err := none, finalClip := some text }) ∧
    (∀ (env : LinuxPasteEnv) (e : String), env.writeOk = true →
      simulateShiftInsertLinux env = some e →
      pasteTextLinux text env =
        { err := some ("failed to simulate paste: " ++ e),
          finalClip := some text }) ∧
    (∀ env : DarwinPasteEnv, env.pbcopyOk = true → env.osascriptOk = false →
      pasteTextDarwin text env =
        { err := some "Cmd+V simulation failed", finalClip := some text }) := by
  refine ⟨?_, ?_, ?_⟩
  · intro env hw hs
    unfold pasteTextWindows
    simp [hw, hs]
  · intro env e hw hs
    unfold pasteTextLinux
    rw [hs]
    simp [hw]
  · intro env hw hs
    unfold pasteTextDarwin
    simp [hw, hs]

/-- C3 witness: the blocked-synthesis clauses applied at concrete
environments. -/
theorem pasteText_synthesis_blocked_witness :
    pasteTextWindows "hello"
        { initialClip := some "PREV", clipWriteOk := true, sendInputOk := false }
      = { err := none, finalClip := some "hello" } ∧
    pasteTextDarwin "hello"
        { initialClip := some "PREV", pbcopyOk := true, osascriptOk := false }
      = { err := some "Cmd+V simulation failed", finalClip := some "hello" } :=
  ⟨(pasteText_synthesis_blocked "hello").1 _ rfl rfl,
   (pasteText_synthesis_blocked "hello").2.2 _ rfl rfl⟩

/-- C3 counterexample to the claim as stated: with every Linux tool absent
the Linux injection returns an error, and with osascript failing the macOS
injection returns an error — not success as the claim asserts for every
platform. -/
theorem pasteText_fallback_not_success_linux_darwin :
    (pasteTextLinux "hello"
        { initialClip := some "PREV", writeOk := true, ydotool := some false,
          wtype := some false, xdotool := none }).err
      = some ("failed to simulate paste: " ++
          "no key simulation tool found (install ydotool, wtype, or xdotool)") ∧
    (pasteTextDarwin "hello"
        { initialClip := some "PREV", pbcopyOk := true,
          osascriptOk := false }).err
      = some "Cmd+V simulation failed" := by decide

end Transcribation
